import Mathlib

/- Verification of the core of a compile-time-assisted safe integer
arithmetic library (Boost safe_numerics): the fallible result carrier
`checked_result` (checked_result.hpp) and the operator dispatch layer
(safe_base_operations.hpp).  Machine integers of a result base type are
modelled as mathematical integers together with an explicit two-sided
range and a twos-complement wraparound map; headers not present under
src/ (interval.hpp, checked.hpp, safe_compare.hpp, safe_base.hpp,
exception.hpp) are modelled from the specification and marked so. -/

/-- Modelled from the spec: the closed fault enumeration of §4.1
(exception.hpp is not under src/). -/
inductive SafeNumericsError where
  | success
  | positiveOverflow
  | negativeOverflow
  | underflow
  | rangeError
  | domainError
  | divideByZero
  | logicError
  deriving DecidableEq

/-- The fallible result carrier `checked_result<R>` of checked_result.hpp:
either a value (fault field = success, value member of the union active) or
a named fault together with a message (message member active).  The two
constructors of the C++ struct determine which union member is active from
the fault field, so the carrier is exactly this sum. -/
inductive CheckedResult (R : Type) where
  | value (r : R)
  | fault (e : SafeNumericsError) (msg : String)
  deriving DecidableEq

namespace CheckedResult

/-- The (fault, message) constructor of checked_result.hpp; its body asserts
that the fault is not success, which `none` models (assertion fires). -/
def construct {R : Type} (e : SafeNumericsError) (msg : String) :
    Option (CheckedResult R) :=
  if e = SafeNumericsError.success then none else some (.fault e msg)

/-- Member `exception()` of checked_result.hpp: the fault field differs from
success. -/
def exception {R : Type} : CheckedResult R → Bool
  | .value _ => false
  | .fault _ _ => true

/-- Member `operator safe_numerics_error()` of checked_result.hpp: reads the
fault field, legitimate on both carriers. -/
def errOf {R : Type} : CheckedResult R → SafeNumericsError
  | .value _ => .success
  | .fault e _ => e

/-- Member `operator R()` of checked_result.hpp: asserts `! exception()` and
reads the value member of the union; `none` models the assertion firing (a
fault carrier has no value). -/
def toR {R : Type} : CheckedResult R → Option R
  | .value r => some r
  | .fault _ _ => none

/-- Member `operator const char *()` of checked_result.hpp: asserts
`exception()` and reads the message member; `none` models the assertion
firing on a success carrier. -/
def toMsg {R : Type} : CheckedResult R → Option String
  | .value _ => none
  | .fault _ msg => some msg

end CheckedResult

/- ------------------------------------------------------------------ -/
/- Result base types: mathematical integers with a width, a signedness,
   the corresponding closed range, and the wraparound map. -/

/-- Smallest value of a `w`-bit machine integer (signed or unsigned). -/
def rMin (w : Nat) (s : Bool) : Int :=
  if s then -(2 ^ (w - 1)) else 0

/-- Largest value of a `w`-bit machine integer (signed or unsigned). -/
def rMax (w : Nat) (s : Bool) : Int :=
  if s then 2 ^ (w - 1) - 1 else 2 ^ w - 1

/-- Range test for the result base type, as used by the checked primitives. -/
def inRangeB (w : Nat) (s : Bool) (x : Int) : Bool :=
  decide (rMin w s ≤ x) && decide (x ≤ rMax w s)

/-- Conversion of a mathematical integer to the `w`-bit machine integer it
denotes: reduction modulo 2 ^ w into the representable window (the
twos-complement reading for signed types). -/
def wrap (w : Nat) (s : Bool) (x : Int) : Int :=
  if s then (x + 2 ^ (w - 1)) % 2 ^ w - 2 ^ (w - 1) else x % 2 ^ w

/- ------------------------------------------------------------------ -/
/- Safe-compare and the interval three-valued ordering. -/

/-- Three-valued truth as used by the interval ordering (boost tribool). -/
inductive TriBool where
  | tt
  | ff
  | ind
  deriving DecidableEq

/-- Test for the indeterminate case (boost indeterminate(r)). -/
def TriBool.isInd : TriBool → Bool
  | .ind => true
  | _ => false

/-- Modelled from the spec: the three-valued ordering `interval < interval`
of §4.5 (interval.hpp is not under src/): true iff u1 < l2, false iff
l1 > u2, else indeterminate. -/
def intervalLtTri (l1 u1 l2 u2 : Int) : TriBool :=
  if u1 < l2 then .tt
  else if u2 < l1 then .ff
  else .ind

/-- Modelled from the spec: the three-valued ordering `interval > interval`
of §4.5, symmetric to `intervalLtTri`. -/
def intervalGtTri (l1 u1 l2 u2 : Int) : TriBool :=
  if u2 < l1 then .tt
  else if u1 < l2 then .ff
  else .ind

/-- The operator< of safe_base_operations.hpp (lines 625-659): when the interval
ordering is determinate it returns `false`, otherwise it falls through to
safe_compare::less_than on the runtime values (safe-compare is modelled from
spec §4.3 as the mathematical ordering; safe_compare.hpp is not under
src/). -/
def ltOpAsCoded (tl tu ul uu a b : Int) : Bool :=
  if (intervalLtTri tl tu ul uu).isInd then decide (a < b) else false

/-- The operator> of safe_base_operations.hpp (lines 661-695), same shape as
`ltOpAsCoded` with the symmetric interval ordering and
safe_compare::greater_than. -/
def gtOpAsCoded (tl tu ul uu a b : Int) : Bool :=
  if (intervalGtTri tl tu ul uu).isInd then decide (b < a) else false

/- ------------------------------------------------------------------ -/
/- Validation, construction and assignment of safe_base. -/

/-- Member validate of safe_base_operations.hpp (lines 38-55): the value is
neither above Max nor below Min, tested through safe-compare. -/
def validate (mi ma v : Int) : Bool :=
  !(decide (ma < v)) && !(decide (v < mi))

/-- Modelled from the spec: interval member includes of §3
(interval.hpp is not under src/): l ≤ other.l and other.u ≤ u. -/
def includesI (l u ol ou : Int) : Bool :=
  decide (l ≤ ol) && decide (ou ≤ u)

/-- Exception policies as far as the dispatch layer observes them: a strict
policy whose hooks throw, and a non-reporting policy whose hooks return. -/
inductive ExcPolicyKind where
  | strict
  | ignore
  deriving DecidableEq

/-- Outcome of a construction or assignment: an exception propagated out of
the policy hook, or a stored value. -/
inductive ConstructOutcome where
  | thrown (e : SafeNumericsError)
  | stored (v : Int)
  deriving DecidableEq

/-- The safe_base converting constructor of safe_base_operations.hpp (lines
60-85): if this interval includes the source interval no check runs;
otherwise the value is validated and E::range_error is invoked on failure;
after a returning hook the member assignment `m_t = t.m_t` executes
regardless. -/
def constructFromSafe (A B C D : Int) (p : ExcPolicyKind) (v : Int) :
    ConstructOutcome :=
  if includesI A B C D then .stored v
  else if validate A B v then .stored v
  else match p with
    | .strict => .thrown .rangeError
    | .ignore => .stored v

/-- The safe_base converting operator= of safe_base_operations.hpp (lines
87-131), identical validation logic; on a throwing hook the stored member
keeps its previous value, otherwise `m_t = rhs.m_t` executes. -/
def assignFromSafe (A B C D : Int) (p : ExcPolicyKind) (prev v : Int) : Int :=
  if includesI A B C D then v
  else if validate A B v then v
  else match p with
    | .strict => prev
    | .ignore => v

/-- The compile-time admission test of the converting constructor and
operator=: static_assert(indeterminate(t_interval < this_interval)). -/
def constructCompiles (A B C D : Int) : Bool :=
  (intervalLtTri C D A B).isInd

/-- Whether the converting constructor reaches the runtime validation:
exactly when this interval does not include the source interval. -/
def constructValidates (A B C D : Int) : Bool :=
  !(includesI A B C D)

/-- Whether the conversion succeeds (range_error is not invoked): the
include fast case or a passing validation. -/
def constructSucceeds (A B C D v : Int) : Bool :=
  includesI A B C D || validate A B v

/- ------------------------------------------------------------------ -/
/- Policy composition (common_policies, lines 155-233). -/

/-- An operand type as common_policies observes it: the safe marker and the
two policies carried by the type, `none` standing for void. -/
structure CxxType where
  isSafe : Bool
  promo : Option Nat
  exc : Option Nat
  deriving DecidableEq

/-- One static_assert of common_policies: the two policies are identical or
one of them is void. -/
def policyCompat (a b : Option Nat) : Bool :=
  decide (a = b) || a.isNone || b.isNone

/-- Whether common_policies<T, U> compiles: at least one operand is safe and
both policy pairs pass `policyCompat`. -/
def commonPoliciesOk (T U : CxxType) : Bool :=
  (T.isSafe || U.isSafe) && policyCompat T.promo U.promo
    && policyCompat T.exc U.exc

/-- The safe_type member of common_policies: the first operand that is a
safe type. -/
def safeTypeOf (T U : CxxType) : CxxType :=
  if T.isSafe then T else U

/-- The promotion_policy member of common_policies: the promotion policy of
the representative safe type. -/
def resolvedPromo (T U : CxxType) : Option Nat :=
  (safeTypeOf T U).promo

/-- The exception_policy member of common_policies: the exception policy of
the representative safe type. -/
def resolvedExc (T U : CxxType) : Option Nat :=
  (safeTypeOf T U).exc

/- ------------------------------------------------------------------ -/
/- Result-type selection of the bitwise operators (lines 900-1037). -/

/-- The per-operator type functions of the promotion policy interface
(spec §6). -/
inductive PromotionSelector where
  | additionSel
  | subtractionSel
  | multiplicationSel
  | divisionSel
  | modulusSel
  | leftShiftSel
  | rightShiftSel
  | orSel
  | andSel
  | xorSel
  deriving DecidableEq

/-- The binary operators the dispatch layer defines. -/
inductive SafeBinaryOp where
  | add
  | sub
  | mul
  | div
  | mod
  | lshift
  | rshift
  | bitOr
  | bitAnd
  | bitXor
  deriving DecidableEq

/-- Which promotion-policy type function each operator of
safe_base_operations.hpp instantiates to derive its result bounded type:
operator| uses or_result (line 901), and operator& (lines 954-961) and
operator^ (lines 997-1008) also instantiate or_result<T, U>. -/
def resultTypeSelector : SafeBinaryOp → PromotionSelector
  | .add => .additionSel
  | .sub => .subtractionSel
  | .mul => .multiplicationSel
  | .div => .divisionSel
  | .mod => .modulusSel
  | .lshift => .leftShiftSel
  | .rshift => .rightShiftSel
  | .bitOr => .orSel
  | .bitAnd => .orSel
  | .bitXor => .orSel

/- ------------------------------------------------------------------ -/
/- Division dispatch (operator/, lines 474-556). -/

/-- Whether an interval contains zero, the test written in operator/ as
`u_interval.l <= 0 && u_interval.u >= 0`. -/
def containsZero (l u : Int) : Bool :=
  decide (l ≤ 0) && decide (0 ≤ u)

/-- Modelled from the spec: interval division of §4.5 (interval.hpp is not
under src/): a zero-containing divisor interval faults divide_by_zero;
otherwise the endpoint quotients are computed by the checked primitives and
fault when not representable.  True means the fallible result interval
carries no fault. -/
def divideIntervalOk (w : Nat) (s : Bool) (tl tu ul uu : Int) : Bool :=
  if containsZero ul uu then false
  else
    inRangeB w s (Int.tdiv tl ul) && inRangeB w s (Int.tdiv tl uu)
      && inRangeB w s (Int.tdiv tu ul) && inRangeB w s (Int.tdiv tu uu)

/-- The fast-path condition of operator/ as coded (lines 536-539): the
result interval carries no fault AND `u_interval.l <= 0 && u_interval.u >= 0`. -/
def divTakesFastPath (w : Nat) (s : Bool) (tl tu ul uu : Int) : Bool :=
  divideIntervalOk w s tl tu ul uu && containsZero ul uu

/-- The fast-path condition for division as the specification states it
(§4.7: divisor interval must exclude zero), for comparison against
`divTakesFastPath`. -/
def divFastPathSpec (w : Nat) (s : Bool) (tl tu ul uu : Int) : Bool :=
  divideIntervalOk w s tl tu ul uu && !(containsZero ul uu)

/-- Modelled from the spec: the checked division primitive of §4.4
(checked.hpp is not under src/): divide_by_zero on a zero divisor, a fault
when the truncated quotient is not representable, the exact quotient
otherwise. -/
def checkedDivide (w : Nat) (s : Bool) (a b : Int) : CheckedResult Int :=
  if b = 0 then .fault .divideByZero ("divide by zero")
  else if inRangeB w s (Int.tdiv a b) then .value (Int.tdiv a b)
  else .fault .positiveOverflow ("division overflow")

/- ------------------------------------------------------------------ -/
/- Addition, subtraction, multiplication dispatch (lines 243-458). -/

/-- The three exact arithmetic operators whose dispatchers share one shape
(operator+, operator-, operator*). -/
inductive ArithOp where
  | add
  | sub
  | mul
  deriving DecidableEq

/-- The exact mathematical result of an arithmetic operator. -/
def exactOp : ArithOp → Int → Int → Int
  | .add, a, b => a + b
  | .sub, a, b => a - b
  | .mul, a, b => a * b

/-- Modelled from the spec: interval arithmetic of §4.5 over the result base
type (interval.hpp and checked.hpp are not under src/): endpoint sums and
differences, and the four endpoint products, each computed by the checked
primitive; true means the fallible result interval carries no fault. -/
def opIntervalOk (w : Nat) (s : Bool) : ArithOp → Int → Int → Int → Int → Bool
  | .add, tl, tu, ul, uu => inRangeB w s (tl + ul) && inRangeB w s (tu + uu)
  | .sub, tl, tu, ul, uu => inRangeB w s (tl - uu) && inRangeB w s (tu - ul)
  | .mul, tl, tu, ul, uu =>
      inRangeB w s (tl * ul) && inRangeB w s (tl * uu)
        && inRangeB w s (tu * ul) && inRangeB w s (tu * uu)

/-- The fast path of operator+, operator- and operator*: both operands are
cast to the result base type and the native operator of that type is
applied, with no runtime check (for example lines 299-304). -/
def fastPathOp (w : Nat) (s : Bool) (op : ArithOp) (a b : Int) : Int :=
  wrap w s (exactOp op (wrap w s a) (wrap w s b))

/-- Modelled from the spec: the checked addition primitive of §4.4
(checked.hpp is not under src/): the exact sum when representable, the
corresponding overflow fault otherwise. -/
def checkedAdd (w : Nat) (s : Bool) (a b : Int) : CheckedResult Int :=
  if inRangeB w s (a + b) then .value (a + b)
  else if rMax w s < a + b then .fault .positiveOverflow ("addition overflow")
  else .fault .negativeOverflow ("addition underflow")

/-- Outcome of a full dispatched operator: an exception propagated out of
the policy hook, or a returned value (`none` marking the checked_result
value assertion firing on a fault carrier). -/
inductive OpOutcome where
  | thrown (e : SafeNumericsError)
  | returned (v : Option Int)
  deriving DecidableEq

/-- Dispatch of a fallible result to the exception policy (member dispatch
consumed at line 312): a strict policy hook throws the fault, a
non-reporting hook returns; on success nothing happens. -/
def dispatchTo (p : ExcPolicyKind) (r : CheckedResult Int) :
    Option SafeNumericsError :=
  match r, p with
  | .fault e _, .strict => some e
  | _, _ => none

/-- The operator+ of safe_base_operations.hpp (lines 254-315) over the result
base type: the fast path when the result interval carries no fault, else
the checked primitive, dispatch to the exception policy, and conversion of
the carrier to the result base type. -/
def safeAddOp (w : Nat) (s : Bool) (tl tu ul uu : Int) (p : ExcPolicyKind)
    (a b : Int) : OpOutcome :=
  if opIntervalOk w s .add tl tu ul uu then
    .returned (some (fastPathOp w s .add a b))
  else
    let r := checkedAdd w s a b
    match dispatchTo p r with
    | some e => .thrown e
    | none => .returned r.toR

/- ------------------------------------------------------------------ -/
/- Arithmetic lemmas about the wraparound map. -/

lemma pow_pos_int (w : Nat) : (0 : Int) < 2 ^ w := by positivity

lemma two_pow_split (w : Nat) (hw : 0 < w) :
    (2 : Int) ^ w = 2 ^ (w - 1) * 2 := by
  rw [← pow_succ]
  congr 1
  omega

lemma wrap_modeq (w : Nat) (s : Bool) (x : Int) :
    wrap w s x ≡ x [ZMOD (2 : Int) ^ w] := by
  unfold wrap
  cases s with
  | false =>
      simp only [Bool.false_eq_true, if_false]
      exact Int.emod_emod_of_dvd x dvd_rfl
  | true =>
      simp only [if_true]
      have h1 : (x + 2 ^ (w - 1)) % 2 ^ w ≡ x + 2 ^ (w - 1) [ZMOD (2 : Int) ^ w] :=
        Int.emod_emod_of_dvd _ dvd_rfl
      have h2 := h1.sub_right ((2 : Int) ^ (w - 1))
      simpa using h2

lemma wrap_range (w : Nat) (s : Bool) (hw : 0 < w) (x : Int) :
    rMin w s ≤ wrap w s x ∧ wrap w s x ≤ rMax w s := by
  have hn : (0 : Int) < 2 ^ w := pow_pos_int w
  cases s with
  | false =>
      have h1 : 0 ≤ x % 2 ^ w := Int.emod_nonneg x (ne_of_gt hn)
      have h2 : x % 2 ^ w < 2 ^ w := Int.emod_lt_of_pos x hn
      simp only [wrap, rMin, rMax, Bool.false_eq_true, if_false]
      omega
  | true =>
      have hs := two_pow_split w hw
      have h1 : 0 ≤ (x + 2 ^ (w - 1)) % 2 ^ w := Int.emod_nonneg _ (ne_of_gt hn)
      have h2 : (x + 2 ^ (w - 1)) % 2 ^ w < 2 ^ w := Int.emod_lt_of_pos _ hn
      simp only [wrap, rMin, rMax, if_true]
      omega

lemma range_width (w : Nat) (s : Bool) (hw : 0 < w) :
    rMax w s - rMin w s + 1 = 2 ^ w := by
  cases s with
  | false =>
      simp only [rMin, rMax, Bool.false_eq_true, if_false]
      ring
  | true =>
      have hs := two_pow_split w hw
      simp only [rMin, rMax, if_true]
      omega

lemma wrap_eq_of (w : Nat) (s : Bool) (hw : 0 < w) (x y : Int)
    (hy1 : rMin w s ≤ y) (hy2 : y ≤ rMax w s)
    (hmod : x ≡ y [ZMOD (2 : Int) ^ w]) : wrap w s x = y := by
  have hn : (0 : Int) < 2 ^ w := pow_pos_int w
  have hwx := wrap_range w s hw x
  have hmod2 : wrap w s x ≡ y [ZMOD (2 : Int) ^ w] :=
    (wrap_modeq w s x).trans hmod
  have hdvd : (2 : Int) ^ w ∣ y - wrap w s x := Int.ModEq.dvd hmod2
  have hb := range_width w s hw
  obtain ⟨k, hk⟩ := hdvd
  rcases lt_trichotomy k 0 with hk0 | hk0 | hk0
  · have hmul : (2 : Int) ^ w * k ≤ 2 ^ w * (-1) :=
      mul_le_mul_of_nonneg_left (by omega) hn.le
    omega
  · rw [hk0, mul_zero] at hk
    omega
  · have hmul : (2 : Int) ^ w * 1 ≤ 2 ^ w * k :=
      mul_le_mul_of_nonneg_left (by omega) hn.le
    omega

lemma inRangeB_iff (w : Nat) (s : Bool) (x : Int) :
    inRangeB w s x = true ↔ rMin w s ≤ x ∧ x ≤ rMax w s := by
  simp [inRangeB]

/- Multiplication corner bounds. -/

lemma mul_bounds_right (lo hi b x : Int) (h1 : lo ≤ x) (h2 : x ≤ hi) :
    min (lo * b) (hi * b) ≤ x * b ∧ x * b ≤ max (lo * b) (hi * b) := by
  rcases le_or_lt 0 b with hb | hb
  · exact ⟨le_trans (min_le_left _ _) (mul_le_mul_of_nonneg_right h1 hb),
      le_trans (mul_le_mul_of_nonneg_right h2 hb) (le_max_right _ _)⟩
  · exact ⟨le_trans (min_le_right _ _) (mul_le_mul_of_nonpos_right h2 hb.le),
      le_trans (mul_le_mul_of_nonpos_right h1 hb.le) (le_max_left _ _)⟩

lemma mul_bounds_left (x lo hi b : Int) (h1 : lo ≤ b) (h2 : b ≤ hi) :
    min (x * lo) (x * hi) ≤ x * b ∧ x * b ≤ max (x * lo) (x * hi) := by
  rcases le_or_lt 0 x with hx | hx
  · exact ⟨le_trans (min_le_left _ _) (mul_le_mul_of_nonneg_left h1 hx),
      le_trans (mul_le_mul_of_nonneg_left h2 hx) (le_max_right _ _)⟩
  · exact ⟨le_trans (min_le_right _ _) (mul_le_mul_of_nonpos_left h2 hx.le),
      le_trans (mul_le_mul_of_nonpos_left h1 hx.le) (le_max_left _ _)⟩

lemma mul_corner (tl tu ul uu a b : Int)
    (h1 : tl ≤ a) (h2 : a ≤ tu) (h3 : ul ≤ b) (h4 : b ≤ uu) :
    min (min (tl * ul) (tl * uu)) (min (tu * ul) (tu * uu)) ≤ a * b ∧
      a * b ≤ max (max (tl * ul) (tl * uu)) (max (tu * ul) (tu * uu)) := by
  obtain ⟨hL, hU⟩ := mul_bounds_right tl tu b a h1 h2
  obtain ⟨hL1, hU1⟩ := mul_bounds_left tl ul uu b h3 h4
  obtain ⟨hL2, hU2⟩ := mul_bounds_left tu ul uu b h3 h4
  constructor
  · exact le_trans (min_le_min hL1 hL2) hL
  · exact le_trans hU (max_le_max hU1 hU2)

/-- Soundness of the fault-free result interval: when the interval analysis
of an arithmetic operator yields no fault, every pair of operand values in
the operand intervals has its exact result inside the result base range. -/
lemma intervalOk_sound (w : Nat) (s : Bool) (op : ArithOp)
    (tl tu ul uu a b : Int)
    (h1 : tl ≤ a) (h2 : a ≤ tu) (h3 : ul ≤ b) (h4 : b ≤ uu)
    (hok : opIntervalOk w s op tl tu ul uu = true) :
    rMin w s ≤ exactOp op a b ∧ exactOp op a b ≤ rMax w s := by
  cases op with
  | add =>
      simp only [opIntervalOk, Bool.and_eq_true, inRangeB_iff] at hok
      simp only [exactOp]
      omega
  | sub =>
      simp only [opIntervalOk, Bool.and_eq_true, inRangeB_iff] at hok
      simp only [exactOp]
      omega
  | mul =>
      simp only [opIntervalOk, Bool.and_eq_true, inRangeB_iff] at hok
      obtain ⟨⟨⟨hc1, hc2⟩, hc3⟩, hc4⟩ := hok
      obtain ⟨hlo, hhi⟩ := mul_corner tl tu ul uu a b h1 h2 h3 h4
      simp only [exactOp]
      constructor
      · exact le_trans (le_min (le_min hc1.1 hc2.1) (le_min hc3.1 hc4.1)) hlo
      · exact le_trans hhi (max_le (max_le hc1.2 hc2.2) (max_le hc3.2 hc4.2))

/- ------------------------------------------------------------------ -/
/- Stream extraction (operator>>, lines 1085-1103). -/

/-- Modelled from the spec: assignment of a native value to a safe_base
(safe_base.hpp is not under src/, spec §4.6): validate against the bounds,
invoke E::range_error on failure, and store the value after a returning
hook, mirroring the safe-to-safe operator= that is in src.  Returns the
invoked fault messages and the stored value under a returning policy. -/
def assignNative (mi ma v : Int) : List String × Int :=
  if validate mi ma v then ([], v)
  else ([("Value out of range for this safe type")], v)

/-- The stream operator>> of safe_base_operations.hpp (lines 1085-1103)
under a returning exception policy: extract into the temporary, invoke
E::range_error with "error in file input" when extraction failed, then
assign the temporary (indeterminate on failure) to the target; returns the
invoked fault messages in order and the stored value. -/
def streamExtractOp (mi ma : Int) (extracted : Option Int) (indet : Int) :
    List String × Int :=
  match extracted with
  | some v => assignNative mi ma v
  | none =>
      let a := assignNative mi ma indet
      ((("error in file input")) :: a.1, a.2)

/- ------------------------------------------------------------------ -/
/- Helper characterisations shared by several proofs. -/

lemma includesI_iff (l u ol ou : Int) :
    includesI l u ol ou = true ↔ l ≤ ol ∧ ou ≤ u := by
  simp [includesI]

lemma validate_iff (mi ma v : Int) :
    validate mi ma v = true ↔ mi ≤ v ∧ v ≤ ma := by
  simp [validate]
  omega

lemma constructCompiles_iff (A B C D : Int) :
    constructCompiles A B C D = true ↔ A ≤ D ∧ C ≤ B := by
  unfold constructCompiles intervalLtTri
  split_ifs with hA hB
  · simp [TriBool.isInd]
    omega
  · simp [TriBool.isInd]
    omega
  · simp [TriBool.isInd]
    omega

lemma policyCompat_symm (a b : Option Nat) :
    policyCompat a b = policyCompat b a := by
  unfold policyCompat
  rw [decide_eq_decide.mpr (⟨Eq.symm, Eq.symm⟩ : (a = b) ↔ (b = a))]
  cases hd : decide (b = a) <;> cases ha : a.isNone <;> cases hb : b.isNone
    <;> rfl

lemma commonPoliciesOk_symm (T U : CxxType) :
    commonPoliciesOk T U = commonPoliciesOk U T := by
  unfold commonPoliciesOk
  rw [policyCompat_symm T.promo U.promo, policyCompat_symm T.exc U.exc,
    Bool.or_comm]

/- ------------------------------------------------------------------ -/
/- Claims. -/

/-- Claim C1: for operator/ the claim says the unchecked fast path is taken
exactly when the result interval is fault-free and the divisor interval
excludes zero; the code (lines 536-539) instead takes the fast path when
the result interval is fault-free AND the divisor interval CONTAINS zero,
contradicting its own comment.  Since interval division faults on a
zero-containing divisor, the coded fast path is unreachable: at the
concrete fault-free, zero-free instance below the claim prescribes the fast
path while the code takes the checked path, and a runtime zero divisor
always yields a divide_by_zero fault from the checked primitive. -/
theorem c1_division_fastpath_inverted :
    divTakesFastPath 8 true 1 10 1 3 = false
    ∧ divFastPathSpec 8 true 1 10 1 3 = true
    ∧ (∀ (w : Nat) (s : Bool) (tl tu ul uu : Int),
        divTakesFastPath w s tl tu ul uu = false)
    ∧ (∀ (w : Nat) (s : Bool) (a : Int),
        (checkedDivide w s a 0).errOf = SafeNumericsError.divideByZero) := by
  refine ⟨by decide, by decide, ?_, ?_⟩
  · intro w s tl tu ul uu
    cases h : containsZero ul uu
    · simp [divTakesFastPath, h]
    · simp [divTakesFastPath, divideIntervalOk, h]
  · intro w s a
    simp [checkedDivide, CheckedResult.errOf]

/-- Claim C2: the claim says operator< returns the mathematical ordering;
but when the operand intervals are statically separated the code (lines
650-658, 686-694) returns false regardless of which side is smaller, so
safe(5) of range of 0 to 10 compared with safe(150) of range of 100 to 200
yields false although 5 < 150 (and operator> symmetrically). -/
theorem c2_static_separation_bug :
    ltOpAsCoded 0 10 100 200 5 150 = false ∧ ((5 : Int) < 150)
    ∧ gtOpAsCoded 100 200 0 10 150 5 = false ∧ ((150 : Int) > 5) :=
  ⟨by decide, by decide, by decide, by decide⟩

/-- Claim C3: on the fast path (fault-free result interval) the dispatched
operators +, -, * return exactly the mathematical result: casting both
operands to the result base type and applying its native wrapping operator
agrees with the exact integer result whenever the interval analysis of the
operand static intervals yields no fault. -/
theorem c3_fastpath_exact (w : Nat) (s : Bool) (op : ArithOp)
    (tl tu ul uu a b : Int) (hw : 0 < w)
    (h1 : tl ≤ a) (h2 : a ≤ tu) (h3 : ul ≤ b) (h4 : b ≤ uu)
    (hok : opIntervalOk w s op tl tu ul uu = true) :
    fastPathOp w s op a b = exactOp op a b := by
  have hin := intervalOk_sound w s op tl tu ul uu a b h1 h2 h3 h4 hok
  have hmod : exactOp op (wrap w s a) (wrap w s b) ≡ exactOp op a b
      [ZMOD (2 : Int) ^ w] := by
    cases op with
    | add => exact (wrap_modeq w s a).add (wrap_modeq w s b)
    | sub => exact (wrap_modeq w s a).sub (wrap_modeq w s b)
    | mul => exact (wrap_modeq w s a).mul (wrap_modeq w s b)
  exact wrap_eq_of w s hw _ _ hin.1 hin.2 hmod

/-- Witness for C3 at a concrete instance: 5 * 6 over operand intervals
0..10 and 0..10 into a signed 8-bit result base type. -/
theorem c3_fastpath_exact_witness :
    fastPathOp 8 true ArithOp.mul 5 6 = exactOp ArithOp.mul 5 6 :=
  c3_fastpath_exact 8 true ArithOp.mul 0 10 0 10 5 6 (by decide) (by decide)
    (by decide) (by decide) (by decide) (by decide)

/-- Claim C4 counterexample: under a non-reporting exception policy the
converting constructor stores the out-of-range source value after the
range_error hook returns (line 84 executes unconditionally), so a
constructed safe_base of bounds 0..10 can hold 50: the unconditional
invariant of the claim is false. -/
theorem c4_counterexample :
    constructFromSafe 0 10 0 100 ExcPolicyKind.ignore 50 =
      ConstructOutcome.stored 50
    ∧ ¬ ((50 : Int) ≤ 10) := by
  exact ⟨by decide, by decide⟩

/-- Claim C4 (amended): under an exception policy whose range_error does not
return (strict), every completed construction stores a value within the
bounds, and assignment preserves the bounds invariant (on a throwing hook
the previous in-range value is kept). -/
theorem c4_invariant_strict (A B C D v prev : Int)
    (hv1 : C ≤ v) (hv2 : v ≤ D) (hprev1 : A ≤ prev) (hprev2 : prev ≤ B) :
    (∀ r, constructFromSafe A B C D ExcPolicyKind.strict v =
        ConstructOutcome.stored r → A ≤ r ∧ r ≤ B)
    ∧ A ≤ assignFromSafe A B C D ExcPolicyKind.strict prev v
    ∧ assignFromSafe A B C D ExcPolicyKind.strict prev v ≤ B := by
  have hInc : includesI A B C D = true → A ≤ v ∧ v ≤ B := by
    intro h
    rw [includesI_iff] at h
    omega
  have hVal : validate A B v = true → A ≤ v ∧ v ≤ B := by
    intro h
    rw [validate_iff] at h
    omega
  constructor
  · intro r hr
    unfold constructFromSafe at hr
    split_ifs at hr with hA hB
    · injection hr with h
      subst h
      exact hInc hA
    · injection hr with h
      subst h
      exact hVal hB
  · unfold assignFromSafe
    split_ifs with hA hB
    · exact hInc hA
    · exact hVal hB
    · exact ⟨hprev1, hprev2⟩

/-- Witness for the amended C4 at a concrete instance. -/
theorem c4_invariant_strict_witness :
    0 ≤ assignFromSafe 0 10 2 8 ExcPolicyKind.strict 3 5
    ∧ assignFromSafe 0 10 2 8 ExcPolicyKind.strict 3 5 ≤ 10 :=
  (c4_invariant_strict 0 10 2 8 5 3 (by decide) (by decide) (by decide)
    (by decide)).2

/-- Claim C5 counterexample: on an overflowing addition with a
non-reporting policy the claim says the twos-complement wraparound of the
exact result (here -56) is returned; but the checked primitive returns a
fault carrier that holds a message and no value, so the conversion to the
result base type violates the checked_result value assertion (modelled by
none) and no numeric value is delivered. -/
theorem c5_counterexample :
    safeAddOp 8 true 100 100 100 100 ExcPolicyKind.ignore 100 100 =
      OpOutcome.returned none
    ∧ wrap 8 true (100 + 100) = -56
    ∧ safeAddOp 8 true 100 100 100 100 ExcPolicyKind.ignore 100 100 ≠
        OpOutcome.returned (some (wrap 8 true (100 + 100))) := by
  exact ⟨by decide, by decide, by decide⟩

/-- Claim C5 (amended): for all operands whose exact sum overflows the
result base type, the strict policy reports the corresponding overflow
fault; a non-reporting policy delivers no numeric value: extracting the
result from the fault carrier fires the checked_result assertion. -/
theorem c5_overflow_policy (w : Nat) (s : Bool) (tl tu ul uu a b : Int)
    (hw : 0 < w) (h1 : tl ≤ a) (h2 : a ≤ tu) (h3 : ul ≤ b) (h4 : b ≤ uu)
    (hov : ¬ (rMin w s ≤ a + b ∧ a + b ≤ rMax w s)) :
    safeAddOp w s tl tu ul uu ExcPolicyKind.strict a b =
      OpOutcome.thrown (if rMax w s < a + b then SafeNumericsError.positiveOverflow
        else SafeNumericsError.negativeOverflow)
    ∧ safeAddOp w s tl tu ul uu ExcPolicyKind.ignore a b =
        OpOutcome.returned none := by
  have hok : opIntervalOk w s ArithOp.add tl tu ul uu = false := by
    cases hbool : opIntervalOk w s ArithOp.add tl tu ul uu
    · rfl
    · exact absurd
        (intervalOk_sound w s ArithOp.add tl tu ul uu a b h1 h2 h3 h4 hbool)
        hov
  have hrb : inRangeB w s (a + b) = false := by
    cases hbool : inRangeB w s (a + b)
    · rfl
    · exact absurd ((inRangeB_iff w s (a + b)).mp hbool) hov
  constructor
  · simp only [safeAddOp, hok, Bool.false_eq_true, if_false, checkedAdd, hrb]
    split_ifs with hcase
    · rfl
    · rfl
  · simp only [safeAddOp, hok, Bool.false_eq_true, if_false, checkedAdd, hrb]
    split_ifs with hcase
    · rfl
    · rfl

/-- Witness for the amended C5 at a concrete instance: 100 + 100 over point
intervals into a signed 8-bit result base type. -/
theorem c5_overflow_policy_witness :
    safeAddOp 8 true 100 100 100 100 ExcPolicyKind.strict 100 100 =
      OpOutcome.thrown (if rMax 8 true < 100 + 100 then
        SafeNumericsError.positiveOverflow else SafeNumericsError.negativeOverflow)
    ∧ safeAddOp 8 true 100 100 100 100 ExcPolicyKind.ignore 100 100 =
        OpOutcome.returned none :=
  c5_overflow_policy 8 true 100 100 100 100 100 100 (by decide) (by decide)
    (by decide) (by decide) (by decide) (by decide)

/-- Claim C6: the cross-bounded conversion compiles exactly when the two
static intervals overlap (the static_assert on the indeterminate tribool),
the runtime validation runs exactly when the destination interval does not
include the source interval, and the conversion succeeds (range_error not
invoked) exactly when the source runtime value lies within the destination
bounds. -/
theorem c6_conversion (A B C D v : Int) (hAB : A ≤ B) (hCD : C ≤ D)
    (hv1 : C ≤ v) (hv2 : v ≤ D) :
    (constructCompiles A B C D = true ↔
      ∃ x : Int, A ≤ x ∧ x ≤ B ∧ C ≤ x ∧ x ≤ D)
    ∧ (constructValidates A B C D = true ↔
        ¬ (∀ x : Int, C ≤ x → x ≤ D → A ≤ x ∧ x ≤ B))
    ∧ (constructSucceeds A B C D v = true ↔ A ≤ v ∧ v ≤ B) := by
  refine ⟨?_, ?_, ?_⟩
  · rw [constructCompiles_iff]
    constructor
    · rintro ⟨hAD, hCB⟩
      rcases le_total A C with h | h
      · exact ⟨C, h, hCB, le_refl C, hCD⟩
      · exact ⟨A, le_refl A, hAB, h, hAD⟩
    · rintro ⟨x, hx1, hx2, hx3, hx4⟩
      omega
  · unfold constructValidates
    cases hI : includesI A B C D
    · simp only [Bool.not_false]
      constructor
      · intro _ hall
        have h1 := hall C le_rfl hCD
        have h2 := hall D hCD le_rfl
        have hinc : includesI A B C D = true := by
          rw [includesI_iff]
          omega
        rw [hI] at hinc
        exact Bool.noConfusion hinc
      · intro _
        trivial
    · rw [includesI_iff] at hI
      simp only [Bool.not_true, Bool.false_eq_true, false_iff, not_not]
      intro x hx1 hx2
      omega
  · unfold constructSucceeds
    simp only [Bool.or_eq_true, includesI_iff, validate_iff]
    omega

/-- Witness for C6 at a concrete instance: destination bounds 0..10, source
bounds 5..20, value 7. -/
theorem c6_conversion_witness :
    constructSucceeds 0 10 5 20 7 = true ↔ (0 : Int) ≤ 7 ∧ (7 : Int) ≤ 10 :=
  (c6_conversion 0 10 5 20 7 (by decide) (by decide) (by decide)
    (by decide)).2.2

/-- Claim C7 counterexample: when both operands are safe types and one of
them carries a void promotion policy, common_policies compiles in both
orders but resolves the policies of the FIRST safe operand, so the two
orders resolve different promotion policies. -/
theorem c7_counterexample :
    commonPoliciesOk ⟨true, some 1, some 1⟩ ⟨true, none, some 1⟩ = true
    ∧ commonPoliciesOk ⟨true, none, some 1⟩ ⟨true, some 1, some 1⟩ = true
    ∧ resolvedPromo ⟨true, some 1, some 1⟩ ⟨true, none, some 1⟩ = some 1
    ∧ resolvedPromo ⟨true, none, some 1⟩ ⟨true, some 1, some 1⟩ = none := by
  exact ⟨by decide, by decide, by decide, by decide⟩

/-- Claim C7 (amended): whether common_policies compiles is symmetric in
the operand order, and the resolved promotion and exception policies agree
between the two orders whenever at most one operand is a safe type, or
both safe operands carry identical policy parameters. -/
theorem c7_compose_symm (T U : CxxType) (h : commonPoliciesOk T U = true) :
    commonPoliciesOk U T = true
    ∧ (¬ (T.isSafe = true ∧ U.isSafe = true)
        ∨ (T.promo = U.promo ∧ T.exc = U.exc) →
        resolvedPromo T U = resolvedPromo U T
          ∧ resolvedExc T U = resolvedExc U T) := by
  have hsafe : T.isSafe = true ∨ U.isSafe = true := by
    simp only [commonPoliciesOk, Bool.and_eq_true, Bool.or_eq_true] at h
    exact h.1.1
  constructor
  · rw [commonPoliciesOk_symm U T]
    exact h
  · intro hc
    unfold resolvedPromo resolvedExc safeTypeOf
    cases hT : T.isSafe with
    | true =>
        cases hU : U.isSafe with
        | true =>
            rcases hc with hc | hc
            · exact absurd ⟨hT, hU⟩ hc
            · simp only [if_pos rfl]
              exact ⟨hc.1, hc.2⟩
        | false =>
            simp
    | false =>
        cases hU : U.isSafe with
        | true =>
            simp
        | false =>
            rw [hT] at hsafe
            rw [hU] at hsafe
            rcases hsafe with hs | hs
            · exact Bool.noConfusion hs
            · exact Bool.noConfusion hs

/-- Witness for the amended C7 at a concrete instance: a safe type with
policies composed with a native type resolves the same policies in both
orders. -/
theorem c7_compose_symm_witness :
    commonPoliciesOk ⟨false, none, none⟩ ⟨true, some 1, some 2⟩ = true
    ∧ resolvedPromo ⟨true, some 1, some 2⟩ ⟨false, none, none⟩ =
        resolvedPromo ⟨false, none, none⟩ ⟨true, some 1, some 2⟩
    ∧ resolvedExc ⟨true, some 1, some 2⟩ ⟨false, none, none⟩ =
        resolvedExc ⟨false, none, none⟩ ⟨true, some 1, some 2⟩ :=
  ⟨(c7_compose_symm ⟨true, some 1, some 2⟩ ⟨false, none, none⟩ (by decide)).1,
    (c7_compose_symm ⟨true, some 1, some 2⟩ ⟨false, none, none⟩
      (by decide)).2 (Or.inl (by decide))⟩

/-- Claim C8: in checked_result the value slot is observable only on a
success carrier and the message slot only on a fault carrier: construction
from a value yields a success carrier exposing that value and no message;
the (fault, message) constructor with fault success fires its assertion;
and any carrier it does produce carries that non-success fault, fires the
value-conversion assertion, and exposes the message. -/
theorem c8_checked_result_invariants :
    (∀ r : Int, (CheckedResult.value r).errOf = SafeNumericsError.success
      ∧ (CheckedResult.value r).exception = false
      ∧ (CheckedResult.value r).toR = some r
      ∧ (CheckedResult.value r).toMsg = none)
    ∧ (∀ msg : String,
        (CheckedResult.construct SafeNumericsError.success msg :
          Option (CheckedResult Int)) = none)
    ∧ (∀ (e : SafeNumericsError) (msg : String) (cr : CheckedResult Int),
        CheckedResult.construct e msg = some cr →
          cr.errOf = e ∧ cr.exception = true ∧ cr.toR = none
            ∧ cr.toMsg = some msg) := by
  refine ⟨fun r => ⟨rfl, rfl, rfl, rfl⟩, fun msg => rfl, ?_⟩
  intro e msg cr h
  unfold CheckedResult.construct at h
  split_ifs at h with he
  injection h with h2
  subst h2
  exact ⟨rfl, rfl, rfl, rfl⟩

/-- Witness for C8 at concrete carriers. -/
theorem c8_checked_result_witness :
    (CheckedResult.value (7 : Int)).toR = some 7
    ∧ (CheckedResult.construct SafeNumericsError.success ("m") :
        Option (CheckedResult Int)) = none
    ∧ (CheckedResult.fault SafeNumericsError.rangeError ("oops") :
        CheckedResult Int).toR = none :=
  ⟨(c8_checked_result_invariants.1 7).2.2.1,
    c8_checked_result_invariants.2.1 ("m"),
    (c8_checked_result_invariants.2.2 SafeNumericsError.rangeError ("oops")
      (CheckedResult.fault SafeNumericsError.rangeError ("oops"))
      (by decide)).2.2.1⟩

/-- Claim C9: the claim says operator& derives its result bounded type
from the promotion policy and_result type function and operator^ from
xor_result; the code instantiates or_result<T, U> for both (lines 954-961
and 997-1008), as it does for operator|. -/
theorem c9_bitwise_result_selector :
    resultTypeSelector SafeBinaryOp.bitAnd = PromotionSelector.orSel
    ∧ resultTypeSelector SafeBinaryOp.bitXor = PromotionSelector.orSel
    ∧ resultTypeSelector SafeBinaryOp.bitAnd ≠ PromotionSelector.andSel
    ∧ resultTypeSelector SafeBinaryOp.bitXor ≠ PromotionSelector.xorSel := by
  exact ⟨rfl, rfl, by decide, by decide⟩

/-- Claim C10: when stream extraction fails, the stream operator>> invokes
E::range_error with the message "error in file input" first, and if the
hook returns, the indeterminate temporary is nevertheless assigned to the
target before returning. -/
theorem c10_stream_extraction (mi ma indet : Int) :
    (streamExtractOp mi ma none indet).1.head? = some ("error in file input")
    ∧ (streamExtractOp mi ma none indet).2 = indet := by
  unfold streamExtractOp assignNative
  split_ifs <;> exact ⟨rfl, rfl⟩
